import Mathlib

/-!
Shallow embedding of the budget-aware search router of mcp-omnisearch.

The embedded source files:
* `src/routing/budget_router.ts` — class `BudgetRouter`: storage-key derivation,
  quota check, circuit breaker, usage recording, the `route()` algorithm and
  `getUsageStats()`.
* `src/storage/file.ts` — class `FileStorage`: load/get over the usage file.
* `src/providers/unified/web_search.ts` — the explicit-provider path of
  `UnifiedWebSearchProvider.search`.

Modelling conventions: JS `Map`s become functions into `Option`, the usage
storage becomes a function `String → Nat`, `Date.now()` becomes an explicit
`now : Nat` parameter (milliseconds), and the string
`new Date().toISOString().slice(0, 7)` becomes an explicit `month : String`
parameter.  A provider's `search` call is an oracle
`String → Option (List SearchResult)`: `some rs` is a successful return,
`none` a thrown provider error.  The `PROVIDER_LIMITS` table lives in
`src/config/env.ts`, which is not among the sources; the definitions are
therefore parametrised by a table `limits : String → LimitConfig` together
with a membership predicate for the `provider in PROVIDER_LIMITS` test.
-/

namespace Omnisearch

/-- Reset type of a provider's quota policy (`PROVIDER_LIMITS[p].type`). -/
inductive ResetType
  | monthly
  | lifetime
  | paid
deriving DecidableEq, Repr

/-- One entry of `PROVIDER_LIMITS`: a limit, a reset type, and for paid
providers an optional `cost_per_query`. -/
structure LimitConfig where
  limit : Nat
  type : ResetType
  cost_per_query : Option Int
deriving DecidableEq, Repr

/-- Circuit-breaker state for one provider (interface `CircuitState`). -/
structure CircuitState where
  failures : Nat
  lastFailure : Nat
  cooldownUntil : Nat
deriving DecidableEq, Repr

/-- The `CIRCUIT_BREAKER` configuration constant. -/
structure CircuitBreakerConfig where
  maxFailures : Nat
  cooldownMs : Nat

/-- `CIRCUIT_BREAKER = { maxFailures: 3, cooldownMs: 5 * 60 * 1000 }`. -/
def CIRCUIT_BREAKER : CircuitBreakerConfig :=
  { maxFailures := 3, cooldownMs := 5 * 60 * 1000 }

/-- The in-memory `circuitState` map (`Map<ProviderName, CircuitState>`). -/
def Circuit : Type := String → Option CircuitState

/-- `Map.set` on the circuit map. -/
def Circuit.set (c : Circuit) (p : String) (v : CircuitState) : Circuit :=
  fun q => if q = p then some v else c q

/-- `Map.delete` on the circuit map. -/
def Circuit.del (c : Circuit) (p : String) : Circuit :=
  fun q => if q = p then none else c q

/-- A uniform search result, as produced by the provider adapters
(`SearchResult` of `src/common/types.ts`, fields used by the router). -/
structure SearchResult where
  title : String
  url : String
  snippet : String
  position : Nat
deriving DecidableEq, Repr

namespace UsageStorage

/-- The storage contract `increment(key)`: the counter at `key` grows by one,
every other key is untouched (`src/storage/index.ts`, realised by both
backends). -/
def increment (key : String) (u : String → Nat) : String → Nat :=
  fun k => if k = key then u key + 1 else u k

end UsageStorage

namespace BudgetRouter

/-- `BudgetRouter.getStorageKey`: monthly providers get a `"{p}:{YYYY-MM}"`
key, paid providers `"{p}:paid"`, everything else `"{p}:lifetime"`. -/
def getStorageKey (limits : String → LimitConfig) (month : String)
    (provider : String) : String :=
  if (limits provider).type = ResetType.monthly then provider ++ ":" ++ month
  else if (limits provider).type = ResetType.paid then provider ++ ":paid"
  else provider ++ ":lifetime"

/-- `BudgetRouter.hasQuota`: the stored count under the provider's key is
strictly below the configured limit. -/
def hasQuota (limits : String → LimitConfig) (month : String)
    (usage : String → Nat) (provider : String) : Bool :=
  decide (usage (getStorageKey limits month provider) < (limits provider).limit)

/-- `BudgetRouter.isCircuitOpen`: returns the decision together with the
(possibly mutated) circuit map — a stale record (cooldown elapsed, failures
at or above the threshold) is deleted. -/
def isCircuitOpen (now : Nat) (c : Circuit) (provider : String) :
    Bool × Circuit :=
  match c provider with
  | none => (false, c)
  | some st =>
    if now < st.cooldownUntil then (true, c)
    else if CIRCUIT_BREAKER.maxFailures ≤ st.failures then
      (false, c.del provider)
    else (false, c)

/-- `BudgetRouter.recordFailure`: bump the failure count, stamp the failure
time, and enter cooldown once the count reaches the threshold. -/
def recordFailure (now : Nat) (provider : String) (c : Circuit) : Circuit :=
  let st0 := (c provider).getD { failures := 0, lastFailure := 0, cooldownUntil := 0 }
  let st1 : CircuitState :=
    { failures := st0.failures + 1, lastFailure := now,
      cooldownUntil := st0.cooldownUntil }
  let st2 : CircuitState :=
    if CIRCUIT_BREAKER.maxFailures ≤ st1.failures then
      { st1 with cooldownUntil := now + CIRCUIT_BREAKER.cooldownMs }
    else st1
  c.set provider st2

/-- `BudgetRouter.recordSuccess`: delete the provider's circuit record. -/
def recordSuccess (provider : String) (c : Circuit) : Circuit :=
  c.del provider

/-- Health classification labels of `getHealthStatus`. -/
inductive HealthLabel
  | healthy
  | degraded
  | down
deriving DecidableEq, Repr

/-- Return shape of `getHealthStatus`; the optional `cooldownUntil` ISO string
is modelled by the underlying timestamp. -/
structure HealthStatus where
  status : HealthLabel
  failures : Nat
  cooldownUntil : Option Nat
deriving DecidableEq, Repr

/-- `BudgetRouter.getHealthStatus`. -/
def getHealthStatus (now : Nat) (c : Circuit) (provider : String) :
    HealthStatus :=
  match c provider with
  | none => { status := HealthLabel.healthy, failures := 0, cooldownUntil := none }
  | some st =>
    if now < st.cooldownUntil then
      { status := HealthLabel.down, failures := st.failures,
        cooldownUntil := some st.cooldownUntil }
    else if 0 < st.failures then
      { status := HealthLabel.degraded, failures := st.failures, cooldownUntil := none }
    else
      { status := HealthLabel.healthy, failures := 0, cooldownUntil := none }

/-- `BudgetRouter.recordUsage`: increment the provider's derived key, and on
a paid-tier call additionally its `"{p}:paid"` key. -/
def recordUsage (limits : String → LimitConfig) (month : String)
    (provider : String) (paid : Bool) (u : String → Nat) : String → Nat :=
  let u1 := UsageStorage.increment (getStorageKey limits month provider) u
  if paid then UsageStorage.increment (provider ++ ":paid") u1 else u1

/-- `BudgetRouter.recordExplicitUsage`: a no-op for names outside
`PROVIDER_LIMITS` (`inLimits`); paid-type providers (or an explicit
`isPaidProvider` flag) increment only the `"{p}:paid"` key, everything else
goes through `recordUsage`. -/
def recordExplicitUsage (limits : String → LimitConfig)
    (inLimits : String → Bool) (month : String) (provider : String)
    (isPaidProvider : Bool) (u : String → Nat) : String → Nat :=
  if inLimits provider then
    if (limits provider).type = ResetType.paid || isPaidProvider then
      UsageStorage.increment (provider ++ ":paid") u
    else
      recordUsage limits month provider false u
  else u

/-- `RouteOptions` of `budget_router.ts`; the optional booleans are modelled
with `false` standing for an absent (falsy) flag. -/
structure RouteOptions where
  query : String
  limit : Option Nat
  preferGoogle : Bool
  includeContent : Bool

/-- `RouteResult` of `budget_router.ts`. -/
structure RouteResult where
  results : List SearchResult
  provider : String
  usedPaidTier : Bool
deriving DecidableEq, Repr

/-- The errors `route()` can end with: the `include_content` configuration
error, the final `No search providers available` exhaustion error, and an
uncaught exception thrown by provider `p`'s `search`. -/
inductive RouteError
  | jinaKeyRequired
  | noProvidersAvailable
  | providerError (p : String)
deriving DecidableEq, Repr

/-- The mutable state of a `BudgetRouter` instance touched by `route()`:
the usage storage and the circuit-breaker map. -/
structure RouterState where
  usage : String → Nat
  circuit : Circuit

/-- Outcome of the free-tier loop of `route()`: the winning result if any,
the state after the loop, and the providers whose `search` was invoked,
in invocation order. -/
structure LoopOutcome where
  winner : Option RouteResult
  state : RouterState
  invoked : List String

/-- Outcome of a whole `route()` call: returned value or thrown error, the
state after the call, and the providers whose `search` was invoked. -/
structure RouteOutcome where
  result : Except RouteError RouteResult
  state : RouterState
  invoked : List String

/-- `defaultStack` of `BudgetRouter`. -/
def defaultStack : List String :=
  ["brave", "tavily", "exa", "jina_search", "serper", "youcom"]

/-- `googleStack` of `BudgetRouter`. -/
def googleStack : List String :=
  ["serper", "brave", "tavily", "exa", "jina_search", "youcom"]

/-- The `for (const providerName of stack)` loop of `route()`: skip an
unregistered provider, skip on an open circuit (keeping the mutated map),
skip without quota; otherwise invoke `search` — on success record usage,
reset the circuit and stop; on failure record a circuit failure and go on. -/
def routeLoop (limits : String → LimitConfig) (month : String) (now : Nat)
    (registered : String → Bool)
    (search : String → Option (List SearchResult)) :
    List String → RouterState → LoopOutcome
  | [], st => { winner := none, state := st, invoked := [] }
  | q :: rest, st =>
    if registered q then
      let oc := isCircuitOpen now st.circuit q
      let st1 : RouterState := { usage := st.usage, circuit := oc.2 }
      if oc.1 then
        routeLoop limits month now registered search rest st1
      else if hasQuota limits month st1.usage q then
        match search q with
        | some rs =>
          { winner := some { results := rs, provider := q, usedPaidTier := false },
            state := { usage := recordUsage limits month q false st1.usage,
                       circuit := recordSuccess q st1.circuit },
            invoked := [q] }
        | none =>
          let lo := routeLoop limits month now registered search rest
            { usage := st1.usage, circuit := recordFailure now q st1.circuit }
          { winner := lo.winner, state := lo.state, invoked := q :: lo.invoked }
      else
        routeLoop limits month now registered search rest st1
    else
      routeLoop limits month now registered search rest st

/-- `BudgetRouter.route`: the `includeContent` short-circuit to
`jina_search`, then the free-tier loop over the chosen stack, then the paid
fallback (`serper` when `preferGoogle`, else `jina_search`) invoked without
quota or circuit checks, and finally the exhaustion error. -/
def route (limits : String → LimitConfig) (month : String) (now : Nat)
    (registered : String → Bool)
    (search : String → Option (List SearchResult))
    (opts : RouteOptions) (st : RouterState) : RouteOutcome :=
  if opts.includeContent then
    if registered "jina_search" then
      match search "jina_search" with
      | some rs =>
        { result := Except.ok
            { results := rs, provider := "jina_search", usedPaidTier := false },
          state := { usage := recordUsage limits month "jina_search" false st.usage,
                     circuit := st.circuit },
          invoked := ["jina_search"] }
      | none =>
        { result := Except.error (RouteError.providerError "jina_search"),
          state := st, invoked := ["jina_search"] }
    else
      { result := Except.error RouteError.jinaKeyRequired,
        state := st, invoked := [] }
  else
    let stack := if opts.preferGoogle then googleStack else defaultStack
    let lo := routeLoop limits month now registered search stack st
    match lo.winner with
    | some r => { result := Except.ok r, state := lo.state, invoked := lo.invoked }
    | none =>
      let paidProvider := if opts.preferGoogle then "serper" else "jina_search"
      if registered paidProvider then
        match search paidProvider with
        | some rs =>
          { result := Except.ok
              { results := rs, provider := paidProvider, usedPaidTier := true },
            state := { usage := recordUsage limits month paidProvider true lo.state.usage,
                       circuit := lo.state.circuit },
            invoked := lo.invoked ++ [paidProvider] }
        | none =>
          { result := Except.error (RouteError.providerError paidProvider),
            state := lo.state, invoked := lo.invoked ++ [paidProvider] }
      else
        { result := Except.error RouteError.noProvidersAvailable,
          state := lo.state, invoked := lo.invoked }

/-- Per-provider entry of the `monthly` / `lifetime` sections of
`BudgetStats`. -/
structure TierStats where
  used : Int
  limit : Int
  remaining : Int
deriving DecidableEq, Repr

/-- Per-provider entry of the `paidApis` section of `BudgetStats`. -/
structure PaidApiStats where
  used : Int
  costPerQuery : Int
  estimatedCost : Int
deriving DecidableEq, Repr

/-- `BudgetStats` of `budget_router.ts`; the record objects are modelled as
association lists in insertion order. -/
structure BudgetStats where
  monthly : List (String × TierStats)
  lifetime : List (String × TierStats)
  paidApis : List (String × PaidApiStats)
  paid : List (String × Nat)
  health : List (String × HealthStatus)

/-- `BudgetRouter.getUsageStats`, iterating over the `PROVIDER_LIMITS`
entries: monthly and lifetime providers get `used`/`limit`/`remaining` with
`remaining = max 0 (limit - used)`, paid providers get `used` and
`estimatedCost`, and every non-paid provider additionally its `:paid`
overage count and a health classification. -/
def getUsageStats (allUsage : String → Nat) (month : String) (now : Nat)
    (c : Circuit) : List (String × LimitConfig) → BudgetStats
  | [] => { monthly := [], lifetime := [], paidApis := [], paid := [], health := [] }
  | (p, cfg) :: rest =>
    let stats := getUsageStats allUsage month now c rest
    let stats :=
      match cfg.type with
      | ResetType.monthly =>
        let used : Int := allUsage (p ++ ":" ++ month)
        { stats with monthly :=
            (p, { used := used, limit := (cfg.limit : Int),
                  remaining := max 0 ((cfg.limit : Int) - used) }) :: stats.monthly }
      | ResetType.lifetime =>
        let used : Int := allUsage (p ++ ":lifetime")
        { stats with lifetime :=
            (p, { used := used, limit := (cfg.limit : Int),
                  remaining := max 0 ((cfg.limit : Int) - used) }) :: stats.lifetime }
      | ResetType.paid =>
        let used : Int := allUsage (p ++ ":paid")
        let cpq := cfg.cost_per_query.getD 0
        { stats with paidApis :=
            (p, { used := used, costPerQuery := cpq,
                  estimatedCost := used * cpq }) :: stats.paidApis }
    let stats :=
      if cfg.type = ResetType.paid then stats
      else { stats with paid := (p, allUsage (p ++ ":paid")) :: stats.paid }
    if cfg.type = ResetType.paid then stats
    else { stats with health := (p, getHealthStatus now c p) :: stats.health }

/-- A concrete quota-policy table used to exercise the theorems: `brave` and
`tavily` monthly, `perplexity` paid, everything else lifetime. -/
def wLimits : String → LimitConfig := fun p =>
  if p = "brave" then { limit := 2000, type := ResetType.monthly, cost_per_query := none }
  else if p = "tavily" then { limit := 1000, type := ResetType.monthly, cost_per_query := none }
  else if p = "perplexity" then { limit := 0, type := ResetType.paid, cost_per_query := some 5 }
  else { limit := 1000, type := ResetType.lifetime, cost_per_query := none }

/-- A quota-policy table with every limit 0 (all free tiers exhausted). -/
def zLimits : String → LimitConfig := fun _ =>
  { limit := 0, type := ResetType.lifetime, cost_per_query := none }

/-- Every provider registered. -/
def allReg : String → Bool := fun _ => true

/-- Only `jina_search` registered. -/
def jReg : String → Bool := fun p => p == "jina_search"

/-- A search oracle on which every provider succeeds with no results. -/
def okSearch : String → Option (List SearchResult) := fun _ => some []

/-- A search oracle on which every provider call throws. -/
def noSearch : String → Option (List SearchResult) := fun _ => none

/-- Fresh router state: zero counters, no circuit records. -/
def emptyState : RouterState :=
  { usage := fun _ => 0, circuit := fun _ => none }

/-- A plain routed request. -/
def qOpts : RouteOptions :=
  { query := "q", limit := none, preferGoogle := false, includeContent := false }

/-- A request with `includeContent` set. -/
def icOpts : RouteOptions :=
  { query := "q", limit := none, preferGoogle := false, includeContent := true }

/-- A circuit map in which `jina_search`'s breaker is open until time 1000. -/
def openCircuit : Circuit := fun q =>
  if q = "jina_search"
  then some { failures := 3, lastFailure := 0, cooldownUntil := 1000 }
  else none

/-- Router state with `jina_search`'s breaker open and zero counters. -/
def openState : RouterState :=
  { usage := fun _ => 0, circuit := openCircuit }

/-- Usage with `brave`'s monthly counter over its limit. -/
def wOverUsage : String → Nat := fun k =>
  if k = "brave:2026-02" then 2500 else 0

end BudgetRouter

namespace FileStorage

/-- The on-disk usage file of the local-file backend: absent, unparseable,
or a valid JSON document (an association of keys to counters). -/
inductive FileState
  | absent
  | corrupt
  | valid (data : List (String × Nat))

/-- `FileStorage.load`: the `try`/`catch` maps an absent or unparseable file
to the empty mapping. -/
def load : FileState → List (String × Nat)
  | FileState.valid d => d
  | _ => []

/-- `FileStorage.get`: `data[key] ?? 0`. -/
def get (fs : FileState) (key : String) : Nat :=
  ((load fs).lookup key).getD 0

end FileStorage

/-- The provider map of `UnifiedWebSearchProvider`: the names accepted for
explicit provider selection (`web_search.ts` constructor). -/
def explicitProviders : List String :=
  ["tavily", "brave", "kagi", "exa"]

/-- Errors of the explicit-provider path of
`UnifiedWebSearchProvider.search`. -/
inductive UnifiedError
  | invalidProvider
  | providerFailed
deriving DecidableEq, Repr

/-- The explicit-provider path of `UnifiedWebSearchProvider.search`: an
unknown name raises `Invalid provider`; otherwise the provider's search runs
(its failure propagating) and on success usage is recorded through
`BudgetRouter.recordExplicitUsage` with the default `isPaidProvider=false`. -/
def unifiedExplicitSearch (limits : String → LimitConfig)
    (inLimits : String → Bool) (month : String) (provider : String)
    (outcome : Option (List SearchResult)) (u : String → Nat) :
    Except UnifiedError (List SearchResult × (String → Nat)) :=
  if provider ∈ explicitProviders then
    match outcome with
    | some rs =>
      Except.ok (rs, BudgetRouter.recordExplicitUsage limits inLimits month provider false u)
    | none => Except.error UnifiedError.providerFailed
  else Except.error UnifiedError.invalidProvider

/-- Modelled from the spec: the `PROVIDER_LIMITS` table of
`src/config/env.ts` is not among the sources; the spec's data model gives
every provider an associated quota policy, so the providers accepted for
explicit selection are taken to be members of the table. -/
def limitsCoversExplicit (inLimits : String → Bool) : Prop :=
  ∀ p, p ∈ explicitProviders → inLimits p = true

end Omnisearch

namespace Omnisearch

theorem string_append_left_cancel {a b c : String} (h : a ++ b = a ++ c) : b = c := by
  have h2 : a.data ++ b.data = a.data ++ c.data := by
    have h3 := congrArg String.data h
    simpa using h3
  have h4 : b.data = c.data := List.append_cancel_left h2
  cases b; cases c; exact congrArg String.mk h4

theorem string_colon_inj {p m1 m2 : String} (h : p ++ ":" ++ m1 = p ++ ":" ++ m2) : m1 = m2 :=
  string_append_left_cancel h

theorem paid_suffix (p : String) : p ++ ":paid" = p ++ ":" ++ "paid" := by
  have h : (":" ++ "paid" : String) = ":paid" := by decide
  rw [String.append_assoc, h]

end Omnisearch

namespace Omnisearch
namespace BudgetRouter

theorem increment_self (k : String) (u : String → Nat) :
    UsageStorage.increment k u k = u k + 1 := by
  simp [UsageStorage.increment]

theorem increment_ne {k' k : String} (u : String → Nat) (h : k' ≠ k) :
    UsageStorage.increment k u k' = u k' := by
  simp [UsageStorage.increment, h]

theorem isCircuitOpen_fst_congr {c c' : Circuit} (now : Nat) (p : String)
    (h : c p = c' p) : (isCircuitOpen now c p).1 = (isCircuitOpen now c' p).1 := by
  unfold isCircuitOpen
  rw [h]
  cases c' p with
  | none => rfl
  | some stt =>
    by_cases h1 : now < stt.cooldownUntil
    · simp [h1]
    · by_cases h2 : CIRCUIT_BREAKER.maxFailures ≤ stt.failures <;> simp [h1, h2]

theorem isCircuitOpen_snd_ne {p q : String} (now : Nat) (c : Circuit)
    (h : p ≠ q) : (isCircuitOpen now c q).2 p = c p := by
  unfold isCircuitOpen
  cases c q with
  | none => rfl
  | some stt =>
    by_cases h1 : now < stt.cooldownUntil
    · simp [h1]
    · by_cases h2 : CIRCUIT_BREAKER.maxFailures ≤ stt.failures <;>
        simp [h1, h2, Circuit.del, h]

theorem recordFailure_ne {p q : String} (now : Nat) (c : Circuit)
    (h : p ≠ q) : recordFailure now q c p = c p := by
  simp [recordFailure, Circuit.set, h]

theorem routeLoop_invoked_subset (L : String → LimitConfig) (m : String)
    (now : Nat) (reg : String → Bool)
    (s : String → Option (List SearchResult)) :
    ∀ (stack : List String) (st : RouterState) (p : String),
      p ∈ (routeLoop L m now reg s stack st).invoked → p ∈ stack := by
  intro stack
  induction stack with
  | nil => intro st p hp; simp [routeLoop] at hp
  | cons q rest ih =>
    intro st p hp
    rw [routeLoop] at hp
    by_cases hreg : reg q
    · simp only [hreg, if_true] at hp
      by_cases hopen : (isCircuitOpen now st.circuit q).1
      · simp only [hopen, if_true] at hp
        exact List.mem_cons_of_mem q (ih _ p hp)
      · simp only [hopen, if_false] at hp
        by_cases hq : hasQuota L m st.usage q
        · simp only [hq, if_true] at hp
          cases hsq : s q with
          | some rs =>
            simp only [hsq] at hp
            simp at hp
            simp [hp]
          | none =>
            simp only [hsq] at hp
            simp at hp
            rcases hp with hp | hp
            · simp [hp]
            · exact List.mem_cons_of_mem q (ih _ p hp)
        · simp only [hq, if_false] at hp
          exact List.mem_cons_of_mem q (ih _ p hp)
    · simp only [hreg, if_false] at hp
      exact List.mem_cons_of_mem q (ih _ p hp)

theorem routeLoop_usage_of_winner_none (L : String → LimitConfig) (m : String)
    (now : Nat) (reg : String → Bool)
    (s : String → Option (List SearchResult)) :
    ∀ (stack : List String) (st : RouterState),
      (routeLoop L m now reg s stack st).winner = none →
      (routeLoop L m now reg s stack st).state.usage = st.usage := by
  intro stack
  induction stack with
  | nil => intro st _; rfl
  | cons q rest ih =>
    intro st hw
    rw [routeLoop] at hw ⊢
    by_cases hreg : reg q
    · simp only [hreg, if_true] at hw ⊢
      by_cases hopen : (isCircuitOpen now st.circuit q).1
      · simp only [hopen, if_true] at hw ⊢
        exact ih _ hw
      · simp only [hopen, if_false] at hw ⊢
        by_cases hq : hasQuota L m st.usage q
        · simp only [hq, if_true] at hw ⊢
          cases hsq : s q with
          | some rs =>
            simp only [hsq] at hw
            simp at hw
          | none =>
            simp only [hsq] at hw ⊢
            exact ih _ hw
        · simp only [hq, if_false] at hw ⊢
          exact ih _ hw
    · simp only [hreg, if_false] at hw ⊢
      exact ih _ hw

theorem routeLoop_winner_spec (L : String → LimitConfig) (m : String)
    (now : Nat) (reg : String → Bool)
    (s : String → Option (List SearchResult)) :
    ∀ (stack : List String) (st : RouterState) (r : RouteResult),
      (routeLoop L m now reg s stack st).winner = some r →
      (routeLoop L m now reg s stack st).state.usage
          = recordUsage L m r.provider false st.usage
        ∧ r.usedPaidTier = false ∧ s r.provider = some r.results := by
  intro stack
  induction stack with
  | nil => intro st r hw; simp [routeLoop] at hw
  | cons q rest ih =>
    intro st r hw
    rw [routeLoop] at hw ⊢
    by_cases hreg : reg q
    · simp only [hreg, if_true] at hw ⊢
      by_cases hopen : (isCircuitOpen now st.circuit q).1
      · simp only [hopen, if_true] at hw ⊢
        exact ih _ r hw
      · simp only [hopen, if_false] at hw ⊢
        by_cases hq : hasQuota L m st.usage q
        · simp only [hq, if_true] at hw ⊢
          cases hsq : s q with
          | some rs =>
            simp only [hsq] at hw ⊢
            simp at hw
            subst hw
            exact ⟨rfl, rfl, hsq⟩
          | none =>
            simp only [hsq] at hw ⊢
            exact ih _ r hw
        · simp only [hq, if_false] at hw ⊢
          exact ih _ r hw
    · simp only [hreg, if_false] at hw ⊢
      exact ih _ r hw

theorem routeLoop_invoked_guard (L : String → LimitConfig) (m : String)
    (now : Nat) (reg : String → Bool)
    (s : String → Option (List SearchResult)) :
    ∀ (stack : List String) (st : RouterState), stack.Nodup →
      ∀ p, p ∈ (routeLoop L m now reg s stack st).invoked →
        reg p = true ∧ (isCircuitOpen now st.circuit p).1 = false
          ∧ hasQuota L m st.usage p = true := by
  intro stack
  induction stack with
  | nil => intro st _ p hp; simp [routeLoop] at hp
  | cons q rest ih =>
    intro st hnd p hp
    have hqrest : q ∉ rest := (List.nodup_cons.mp hnd).1
    have hndr : rest.Nodup := (List.nodup_cons.mp hnd).2
    rw [routeLoop] at hp
    by_cases hreg : reg q
    · simp only [hreg, if_true] at hp
      by_cases hopen : (isCircuitOpen now st.circuit q).1
      · simp only [hopen, if_true] at hp
        have hpr : p ∈ rest := routeLoop_invoked_subset L m now reg s rest _ p hp
        have hpq : p ≠ q := fun h => hqrest (h ▸ hpr)
        have ihg := ih _ hndr p hp
        refine ⟨ihg.1, ?_, ihg.2.2⟩
        have hc : (isCircuitOpen now st.circuit q).2 p = st.circuit p :=
          isCircuitOpen_snd_ne now st.circuit hpq
        have hcongr := isCircuitOpen_fst_congr now p hc
        rw [← hcongr]
        exact ihg.2.1
      · simp only [hopen, if_false] at hp
        by_cases hq : hasQuota L m st.usage q
        · simp only [hq, if_true] at hp
          cases hsq : s q with
          | some rs =>
            simp only [hsq] at hp
            have hp2 : p = q := List.mem_singleton.mp hp
            subst hp2
            exact ⟨hreg, Bool.of_not_eq_true hopen, hq⟩
          | none =>
            simp only [hsq] at hp
            rcases List.mem_cons.mp hp with hp | hp
            · subst hp
              exact ⟨hreg, Bool.of_not_eq_true hopen, hq⟩
            · have hpr : p ∈ rest := routeLoop_invoked_subset L m now reg s rest _ p hp
              have hpq : p ≠ q := fun h => hqrest (h ▸ hpr)
              have ihg := ih _ hndr p hp
              refine ⟨ihg.1, ?_, ihg.2.2⟩
              have hc1 : recordFailure now q (isCircuitOpen now st.circuit q).2 p
                  = (isCircuitOpen now st.circuit q).2 p :=
                recordFailure_ne now _ hpq
              have hc2 : (isCircuitOpen now st.circuit q).2 p = st.circuit p :=
                isCircuitOpen_snd_ne now st.circuit hpq
              have hcongr := isCircuitOpen_fst_congr now p (hc1.trans hc2)
              rw [← hcongr]
              exact ihg.2.1
        · simp only [hq, if_false] at hp
          have hpr : p ∈ rest := routeLoop_invoked_subset L m now reg s rest _ p hp
          have hpq : p ≠ q := fun h => hqrest (h ▸ hpr)
          have ihg := ih _ hndr p hp
          refine ⟨ihg.1, ?_, ihg.2.2⟩
          have hc : (isCircuitOpen now st.circuit q).2 p = st.circuit p :=
            isCircuitOpen_snd_ne now st.circuit hpq
          have hcongr := isCircuitOpen_fst_congr now p hc
          rw [← hcongr]
          exact ihg.2.1
    · simp only [hreg, if_false] at hp
      exact ih _ hndr p hp

theorem getStorageKey_ne_paidKey (L : String → LimitConfig) (m p : String)
    (ht : (L p).type ≠ ResetType.paid) (hm : m ≠ "paid") :
    getStorageKey L m p ≠ p ++ ":paid" := by
  unfold getStorageKey
  by_cases hmo : (L p).type = ResetType.monthly
  · simp only [hmo, if_true]
    intro h
    rw [paid_suffix] at h
    exact hm (string_append_left_cancel h)
  · simp only [hmo, if_false, ht, ite_false]
    intro h
    have h2 : (":lifetime" : String) = ":paid" := string_append_left_cancel h
    exact absurd h2 (by decide)

theorem recordUsage_spec (L : String → LimitConfig) (m p : String) (pd : Bool)
    (u : String → Nat) (hne : getStorageKey L m p ≠ p ++ ":paid") :
    recordUsage L m p pd u (getStorageKey L m p) = u (getStorageKey L m p) + 1
    ∧ (pd = true →
        recordUsage L m p pd u (p ++ ":paid") = u (p ++ ":paid") + 1)
    ∧ (∀ k, k ≠ getStorageKey L m p → (pd = true → k ≠ p ++ ":paid") →
        recordUsage L m p pd u k = u k) := by
  cases pd with
  | false =>
    refine ⟨?_, ?_, ?_⟩
    · simp [recordUsage, increment_self]
    · intro h
      exact absurd h (by decide)
    · intro k hk _
      simp [recordUsage, increment_ne _ hk]
  | true =>
    refine ⟨?_, ?_, ?_⟩
    · simp only [recordUsage, if_true]
      rw [increment_ne _ hne, increment_self]
    · intro _
      simp only [recordUsage, if_true]
      rw [increment_self, increment_ne _ (fun h => hne h.symm)]
    · intro k hk hkp
      simp only [recordUsage, if_true]
      rw [increment_ne _ (hkp rfl), increment_ne _ hk]

theorem routeLoop_invoked_reg (L : String → LimitConfig) (m : String)
    (now : Nat) (reg : String → Bool)
    (s : String → Option (List SearchResult)) :
    ∀ (stack : List String) (st : RouterState) (p : String),
      p ∈ (routeLoop L m now reg s stack st).invoked → reg p = true := by
  intro stack
  induction stack with
  | nil => intro st p hp; simp [routeLoop] at hp
  | cons q rest ih =>
    intro st p hp
    rw [routeLoop] at hp
    by_cases hreg : reg q
    · simp only [hreg, if_true] at hp
      by_cases hopen : (isCircuitOpen now st.circuit q).1
      · simp only [hopen, if_true] at hp
        exact ih _ p hp
      · simp only [hopen, if_false] at hp
        by_cases hq : hasQuota L m st.usage q
        · simp only [hq, if_true] at hp
          cases hsq : s q with
          | some rs =>
            simp only [hsq] at hp
            have hp2 : p = q := List.mem_singleton.mp hp
            subst hp2
            exact hreg
          | none =>
            simp only [hsq] at hp
            rcases List.mem_cons.mp hp with hp | hp
            · subst hp; exact hreg
            · exact ih _ p hp
        · simp only [hq, if_false] at hp
          exact ih _ p hp
    · simp only [hreg, if_false] at hp
      exact ih _ p hp

/-- Claim C4: after exactly 3 consecutive recorded failures with no
intervening success the circuit record shows 3 failures with a cooldown of
5 minutes from the last failure and `isOpen` is true within that cooldown;
one recorded success at any time deletes the record entirely, so the failure
count is 0 and `isOpen` is false, independent of cooldown expiry. -/
theorem C4_three_failures_open_success_clears (c : Circuit) (p : String)
    (t1 t2 t3 now nowS : Nat) (cS : Circuit)
    (hc : c p = none) (hnow : now < t3 + CIRCUIT_BREAKER.cooldownMs) :
    recordFailure t3 p (recordFailure t2 p (recordFailure t1 p c)) p
        = some { failures := 3, lastFailure := t3,
                 cooldownUntil := t3 + CIRCUIT_BREAKER.cooldownMs }
    ∧ (isCircuitOpen now
        (recordFailure t3 p (recordFailure t2 p (recordFailure t1 p c))) p).1 = true
    ∧ recordSuccess p cS p = none
    ∧ (isCircuitOpen nowS (recordSuccess p cS) p).1 = false
    ∧ (getHealthStatus nowS (recordSuccess p cS) p).failures = 0 := by
  have h1 : recordFailure t1 p c p
      = some { failures := 1, lastFailure := t1, cooldownUntil := 0 } := by
    simp [recordFailure, Circuit.set, hc, CIRCUIT_BREAKER]
  have h2 : recordFailure t2 p (recordFailure t1 p c) p
      = some { failures := 2, lastFailure := t2, cooldownUntil := 0 } := by
    generalize hg : recordFailure t1 p c = c1 at h1 ⊢
    simp [recordFailure, Circuit.set, h1, CIRCUIT_BREAKER]
  have h3 : recordFailure t3 p (recordFailure t2 p (recordFailure t1 p c)) p
      = some { failures := 3, lastFailure := t3,
               cooldownUntil := t3 + CIRCUIT_BREAKER.cooldownMs } := by
    generalize hg : recordFailure t2 p (recordFailure t1 p c) = c2 at h2 ⊢
    simp [recordFailure, Circuit.set, h2, CIRCUIT_BREAKER]
  have hs : recordSuccess p cS p = none := by
    simp [recordSuccess, Circuit.del]
  refine ⟨h3, ?_, hs, ?_, ?_⟩
  · unfold isCircuitOpen
    rw [h3]
    simp [hnow]
  · unfold isCircuitOpen
    rw [hs]
  · unfold getHealthStatus
    rw [hs]

/-- Witness for C4 at provider `brave`, failures at times 0, 1, 2, queried
at time 10 (inside the 5-minute cooldown). -/
theorem C4_witness :
    (isCircuitOpen 10 (recordFailure 2 "brave" (recordFailure 1 "brave"
        (recordFailure 0 "brave" (fun _ => none)))) "brave").1 = true
    ∧ (isCircuitOpen 10 (recordSuccess "brave" (recordFailure 2 "brave"
        (recordFailure 1 "brave" (recordFailure 0 "brave" (fun _ => none))))) "brave").1
        = false := by
  have h := C4_three_failures_open_success_clears (fun _ => none) "brave" 0 1 2 10 10
    (recordFailure 2 "brave" (recordFailure 1 "brave"
      (recordFailure 0 "brave" (fun _ => none)))) rfl (by decide)
  exact ⟨h.2.1, h.2.2.2.1⟩

/-- Claim C5: for a provider with a circuit record, `isOpen` is true exactly
while `cooldownUntil` lies in the future; once the cooldown has elapsed and
the failure count is still at or above the threshold 3, the record is
deleted from the map and the call returns false. -/
theorem C5_isOpen_iff_cooldown_future (now : Nat) (c : Circuit) (p : String)
    (stt : CircuitState) (hc : c p = some stt) :
    ((isCircuitOpen now c p).1 = true ↔ now < stt.cooldownUntil)
    ∧ (stt.cooldownUntil ≤ now → CIRCUIT_BREAKER.maxFailures ≤ stt.failures →
        isCircuitOpen now c p = (false, Circuit.del c p)) := by
  constructor
  · unfold isCircuitOpen
    rw [hc]
    by_cases h1 : now < stt.cooldownUntil
    · simp [h1]
    · by_cases h2 : CIRCUIT_BREAKER.maxFailures ≤ stt.failures <;> simp [h1, h2]
  · intro hcd hf
    unfold isCircuitOpen
    rw [hc]
    have h1 : ¬ now < stt.cooldownUntil := not_lt.mpr hcd
    simp [h1, hf]

/-- Witness for C5: a record with cooldown until 10 queried at time 5. -/
theorem C5_witness :
    ((isCircuitOpen 5 (fun q => if q = "brave"
        then some { failures := 3, lastFailure := 0, cooldownUntil := 10 }
        else none) "brave").1 = true ↔ (5 : Nat) < 10) := by
  have h := C5_isOpen_iff_cooldown_future 5
    (fun q => if q = "brave"
      then some { failures := 3, lastFailure := 0, cooldownUntil := 10 }
      else none) "brave"
    { failures := 3, lastFailure := 0, cooldownUntil := 10 } (by simp)
  exact h.1

/-- Claim C6: the usage-counter storage key is `"{p}:{month}"` for monthly
providers (stable for one month string, different across different month
strings), `"{p}:lifetime"` for lifetime providers and `"{p}:paid"` for paid
providers. -/
theorem C6_storage_key_derivation (L : String → LimitConfig)
    (p m m1 m2 : String) :
    ((L p).type = ResetType.monthly → getStorageKey L m p = p ++ ":" ++ m)
    ∧ ((L p).type = ResetType.lifetime → getStorageKey L m p = p ++ ":lifetime")
    ∧ ((L p).type = ResetType.paid → getStorageKey L m p = p ++ ":paid")
    ∧ ((L p).type = ResetType.monthly → m1 = m2 →
        getStorageKey L m1 p = getStorageKey L m2 p)
    ∧ ((L p).type = ResetType.monthly → m1 ≠ m2 →
        getStorageKey L m1 p ≠ getStorageKey L m2 p) := by
  refine ⟨?_, ?_, ?_, ?_, ?_⟩
  · intro h; simp [getStorageKey, h]
  · intro h; simp [getStorageKey, h]
  · intro h; simp [getStorageKey, h]
  · intro _ h; rw [h]
  · intro h hne
    simp only [getStorageKey, h, if_true]
    exact fun he => hne (string_append_left_cancel he)

/-- Witness for C6 at the monthly provider `brave` and months `2026-02`
versus `2026-03`. -/
theorem C6_witness :
    getStorageKey wLimits "2026-02" "brave" = "brave:2026-02"
    ∧ getStorageKey wLimits "2026-02" "brave"
        ≠ getStorageKey wLimits "2026-03" "brave"
    ∧ getStorageKey wLimits "2026-02" "exa" = "exa:lifetime"
    ∧ getStorageKey wLimits "2026-02" "perplexity" = "perplexity:paid" := by
  have hb := C6_storage_key_derivation wLimits "brave" "2026-02" "2026-02" "2026-03"
  have he := C6_storage_key_derivation wLimits "exa" "2026-02" "2026-02" "2026-03"
  have hp := C6_storage_key_derivation wLimits "perplexity" "2026-02" "2026-02" "2026-03"
  refine ⟨?_, hb.2.2.2.2 rfl (by decide), ?_, ?_⟩
  · rw [hb.1 rfl]; decide
  · rw [he.2.1 rfl]; decide
  · rw [hp.2.2.1 rfl]; decide

theorem route_ok_usage (L : String → LimitConfig) (m : String) (now : Nat)
    (reg : String → Bool) (s : String → Option (List SearchResult))
    (opts : RouteOptions) (st : RouterState) (r : RouteResult)
    (hok : (route L m now reg s opts st).result = Except.ok r) :
    (route L m now reg s opts st).state.usage
      = recordUsage L m r.provider r.usedPaidTier st.usage := by
  by_cases hic : opts.includeContent = true
  · simp only [route, hic, if_true] at hok ⊢
    by_cases hreg : reg "jina_search"
    · simp only [hreg, if_true] at hok ⊢
      cases hsj : s "jina_search" with
      | some rs =>
        rw [hsj] at hok
        have h2 : RouteResult.mk rs "jina_search" false = r := Except.ok.inj hok
        rw [← h2]
      | none =>
        rw [hsj] at hok
        exact absurd hok (by simp)
    · simp only [Bool.of_not_eq_true hreg, Bool.false_eq_true, if_false] at hok
      exact absurd hok (by simp)
  · have hic2 : opts.includeContent = false := Bool.of_not_eq_true hic
    simp only [route, hic2, Bool.false_eq_true, if_false] at hok ⊢
    cases hw : (routeLoop L m now reg s
        (if opts.preferGoogle then googleStack else defaultStack) st).winner with
    | some r0 =>
      rw [hw] at hok
      have h2 : r0 = r := Except.ok.inj hok
      subst h2
      have hspec := routeLoop_winner_spec L m now reg s
        (if opts.preferGoogle then googleStack else defaultStack) st r0 hw
      rw [hspec.2.1]
      exact hspec.1
    | none =>
      rw [hw] at hok
      by_cases hregf : reg (if opts.preferGoogle then "serper" else "jina_search")
      · simp only [hregf, if_true] at hok ⊢
        cases hsf : s (if opts.preferGoogle then "serper" else "jina_search") with
        | some rs =>
          rw [hsf] at hok
          have h2 : RouteResult.mk rs
              (if opts.preferGoogle then "serper" else "jina_search") true = r :=
            Except.ok.inj hok
          rw [← h2]
          exact congrArg
            (recordUsage L m (if opts.preferGoogle then "serper" else "jina_search") true)
            (routeLoop_usage_of_winner_none L m now reg s _ st hw)
        | none =>
          rw [hsf] at hok
          exact absurd hok (by simp)
      · simp only [Bool.of_not_eq_true hregf, Bool.false_eq_true, if_false] at hok
        exact absurd hok (by simp)

/-- Claim C7: every successful `route()` call increments the winning
provider's derived free-tier key by exactly 1, additionally that provider's
`:paid` key by exactly 1 when the paid tier was used, and changes no other
counter. -/
theorem C7_success_increments_exactly_one (L : String → LimitConfig)
    (m : String) (now : Nat) (reg : String → Bool)
    (s : String → Option (List SearchResult)) (opts : RouteOptions)
    (st : RouterState) (r : RouteResult)
    (hok : (route L m now reg s opts st).result = Except.ok r)
    (ht : (L r.provider).type ≠ ResetType.paid) (hm : m ≠ "paid") :
    (route L m now reg s opts st).state.usage (getStorageKey L m r.provider)
        = st.usage (getStorageKey L m r.provider) + 1
    ∧ (r.usedPaidTier = true →
        (route L m now reg s opts st).state.usage (r.provider ++ ":paid")
          = st.usage (r.provider ++ ":paid") + 1)
    ∧ (∀ k, k ≠ getStorageKey L m r.provider →
        (r.usedPaidTier = true → k ≠ r.provider ++ ":paid") →
        (route L m now reg s opts st).state.usage k = st.usage k) := by
  have hu := route_ok_usage L m now reg s opts st r hok
  have hspec := recordUsage_spec L m r.provider r.usedPaidTier st.usage
    (getStorageKey_ne_paidKey L m r.provider ht hm)
  rw [hu]
  exact hspec

/-- Witness for C7: a fresh routed call with every provider registered is
served by `brave` and bumps exactly `brave`'s monthly key. -/
theorem C7_witness :
    (route wLimits "2026-02" 0 allReg okSearch qOpts emptyState).state.usage
        (getStorageKey wLimits "2026-02" "brave")
      = emptyState.usage (getStorageKey wLimits "2026-02" "brave") + 1
    ∧ (route wLimits "2026-02" 0 allReg okSearch qOpts emptyState).state.usage
        "tavily:2026-02"
      = emptyState.usage "tavily:2026-02" := by
  have h := C7_success_increments_exactly_one wLimits "2026-02" 0 allReg okSearch
    qOpts emptyState (RouteResult.mk [] "brave" false) rfl (by decide) (by decide)
  refine ⟨h.1, h.2.2 "tavily:2026-02" (by decide) ?_⟩
  intro hfalse
  exact absurd hfalse (by decide)

/-- Claim C2 (amended): every provider whose search is invoked by `route()`
is registered; inside the free-tier loop (over a duplicate-free stack) a
provider is invoked only when additionally its circuit breaker is not open
and it has remaining free quota.  (The `includeContent` short-circuit and
the paid fallback check only registration.) -/
theorem C2_invocation_guard (L : String → LimitConfig) (m : String)
    (now : Nat) (reg : String → Bool)
    (s : String → Option (List SearchResult)) (opts : RouteOptions)
    (st : RouterState) :
    (∀ p, p ∈ (route L m now reg s opts st).invoked → reg p = true)
    ∧ (∀ stack, stack.Nodup →
        ∀ p, p ∈ (routeLoop L m now reg s stack st).invoked →
          reg p = true ∧ (isCircuitOpen now st.circuit p).1 = false
            ∧ hasQuota L m st.usage p = true) := by
  constructor
  · intro p hp
    by_cases hic : opts.includeContent = true
    · simp only [route, hic, if_true] at hp
      by_cases hreg : reg "jina_search"
      · simp only [hreg, if_true] at hp
        cases hsj : s "jina_search" with
        | some rs =>
          simp only [hsj] at hp
          have h2 : p = "jina_search" := List.mem_singleton.mp hp
          subst h2
          exact hreg
        | none =>
          simp only [hsj] at hp
          have h2 : p = "jina_search" := List.mem_singleton.mp hp
          subst h2
          exact hreg
      · simp only [Bool.of_not_eq_true hreg, Bool.false_eq_true, if_false] at hp
        exact absurd (List.mem_nil_iff p |>.mp hp) (fun h => h)
    · have hic2 : opts.includeContent = false := Bool.of_not_eq_true hic
      simp only [route, hic2, Bool.false_eq_true, if_false] at hp
      cases hw : (routeLoop L m now reg s
          (if opts.preferGoogle then googleStack else defaultStack) st).winner with
      | some r =>
        rw [hw] at hp
        simp only [] at hp
        exact routeLoop_invoked_reg L m now reg s _ st p hp
      | none =>
        rw [hw] at hp
        by_cases hregf : reg (if opts.preferGoogle then "serper" else "jina_search")
        · simp only [hregf, if_true] at hp
          cases hsf : s (if opts.preferGoogle then "serper" else "jina_search") with
          | some rs =>
            rw [hsf] at hp
            simp only [] at hp
            rcases List.mem_append.mp hp with hp2 | hp2
            · exact routeLoop_invoked_reg L m now reg s _ st p hp2
            · have h2 : p = (if opts.preferGoogle then "serper" else "jina_search") :=
                List.mem_singleton.mp hp2
              subst h2
              exact hregf
          | none =>
            rw [hsf] at hp
            simp only [] at hp
            rcases List.mem_append.mp hp with hp2 | hp2
            · exact routeLoop_invoked_reg L m now reg s _ st p hp2
            · have h2 : p = (if opts.preferGoogle then "serper" else "jina_search") :=
                List.mem_singleton.mp hp2
              subst h2
              exact hregf
        · simp only [Bool.of_not_eq_true hregf, Bool.false_eq_true, if_false] at hp
          exact routeLoop_invoked_reg L m now reg s _ st p hp
  · intro stack hnd p hp
    exact routeLoop_invoked_guard L m now reg s stack st hnd p hp

/-- Counterexample for C2 as stated: `jina_search`'s circuit breaker is open
at the time of the call, yet `route()` still invokes it as the paid
fallback once the stack is exhausted. -/
theorem C2_counterexample :
    (isCircuitOpen 0 openState.circuit "jina_search").1 = true
    ∧ "jina_search" ∈ (route wLimits "2026-02" 0 jReg okSearch qOpts openState).invoked := by
  refine ⟨rfl, ?_⟩
  have h : (route wLimits "2026-02" 0 jReg okSearch qOpts openState).invoked
      = ["jina_search"] := rfl
  rw [h]
  exact List.mem_singleton.mpr rfl

/-- Witness for C2's amended theorem: on a fresh state with every provider
registered, `brave` is invoked in the loop, so it is registered, its
breaker is closed and it has quota. -/
theorem C2_witness :
    allReg "brave" = true
    ∧ (isCircuitOpen 0 emptyState.circuit "brave").1 = false
    ∧ hasQuota wLimits "2026-02" emptyState.usage "brave" = true := by
  have hmem : "brave" ∈ (routeLoop wLimits "2026-02" 0 allReg okSearch
      defaultStack emptyState).invoked := by
    have h : (routeLoop wLimits "2026-02" 0 allReg okSearch
        defaultStack emptyState).invoked = ["brave"] := rfl
    rw [h]
    exact List.mem_singleton.mpr rfl
  exact (C2_invocation_guard wLimits "2026-02" 0 allReg okSearch qOpts
    emptyState).2 defaultStack (by decide) "brave" hmem

/-- Claim C3: with `includeContent` set, `route()` goes unconditionally to
`jina_search`, regardless of stack order, quota or circuit state of any
provider; if `jina_search` is unregistered the call fails immediately with
the configuration error and no provider at all is invoked. -/
theorem C3_include_content_short_circuit (L : String → LimitConfig)
    (m : String) (now : Nat) (reg : String → Bool)
    (s : String → Option (List SearchResult)) (opts : RouteOptions)
    (st : RouterState) (hic : opts.includeContent = true) :
    (reg "jina_search" = false →
      (route L m now reg s opts st).result = Except.error RouteError.jinaKeyRequired
      ∧ (route L m now reg s opts st).invoked = []
      ∧ (route L m now reg s opts st).state.usage = st.usage
      ∧ (route L m now reg s opts st).state.circuit = st.circuit)
    ∧ (reg "jina_search" = true →
      (route L m now reg s opts st).invoked = ["jina_search"]
      ∧ (∀ r, (route L m now reg s opts st).result = Except.ok r →
          r.provider = "jina_search" ∧ r.usedPaidTier = false)) := by
  constructor
  · intro hreg
    refine ⟨?_, ?_, ?_, ?_⟩ <;> simp [route, hic, hreg]
  · intro hreg
    constructor
    · cases hsj : s "jina_search" <;> simp [route, hic, hreg, hsj]
    · intro r hr
      cases hsj : s "jina_search" with
      | some rs =>
        simp only [route, hic, if_true, hreg, hsj] at hr
        have h2 : RouteResult.mk rs "jina_search" false = r :=
          Except.ok.inj hr
        rw [← h2]
        exact ⟨rfl, rfl⟩
      | none =>
        simp [route, hic, hreg, hsj] at hr

/-- Claim C1 (amended): on a routed call (no `includeContent`), any error
implies the free-tier stack was exhausted with no success — individual
provider failures inside the loop never propagate; the error is the
exhaustion error exactly when the designated paid fallback is unregistered,
and when the registered paid fallback's invocation fails the call fails
with that provider's own error, not the exhaustion error. -/
theorem C1_error_classification (L : String → LimitConfig) (m : String)
    (now : Nat) (reg : String → Bool)
    (s : String → Option (List SearchResult)) (opts : RouteOptions)
    (st : RouterState) (e : RouteError)
    (hic : opts.includeContent = false)
    (he : (route L m now reg s opts st).result = Except.error e) :
    (routeLoop L m now reg s
        (if opts.preferGoogle then googleStack else defaultStack) st).winner = none
    ∧ ((e = RouteError.noProvidersAvailable
          ∧ reg (if opts.preferGoogle then "serper" else "jina_search") = false)
        ∨ (e = RouteError.providerError
              (if opts.preferGoogle then "serper" else "jina_search")
          ∧ reg (if opts.preferGoogle then "serper" else "jina_search") = true
          ∧ s (if opts.preferGoogle then "serper" else "jina_search") = none)) := by
  simp only [route, hic, Bool.false_eq_true, if_false] at he
  cases hw : (routeLoop L m now reg s
      (if opts.preferGoogle then googleStack else defaultStack) st).winner with
  | some r =>
    rw [hw] at he
    simp at he
  | none =>
    rw [hw] at he
    refine ⟨rfl, ?_⟩
    by_cases hregf : reg (if opts.preferGoogle then "serper" else "jina_search")
    · simp only [hregf, if_true] at he
      cases hsf : s (if opts.preferGoogle then "serper" else "jina_search") with
      | some rs =>
        rw [hsf] at he
        simp at he
      | none =>
        rw [hsf] at he
        simp only [] at he
        have he2 : RouteError.providerError
            (if opts.preferGoogle then "serper" else "jina_search") = e :=
          Except.error.inj he
        exact Or.inr ⟨he2.symm, hregf, rfl⟩
    · simp only [Bool.of_not_eq_true hregf, Bool.false_eq_true, if_false] at he
      have he2 : RouteError.noProvidersAvailable = e := Except.error.inj he
      exact Or.inl ⟨he2.symm, Bool.of_not_eq_true hregf⟩

/-- Counterexample for C1 as stated: only `jina_search` is registered with
all free tiers exhausted, so the stack is exhausted with no success; the
registered paid fallback `jina_search` then fails — and the whole call fails
with the provider's own error, which is not the exhaustion error. -/
theorem C1_counterexample :
    jReg "jina_search" = true
    ∧ noSearch "jina_search" = none
    ∧ (routeLoop zLimits "2026-02" 0 jReg noSearch defaultStack emptyState).winner
        = none
    ∧ (route zLimits "2026-02" 0 jReg noSearch qOpts emptyState).result
        = Except.error (RouteError.providerError "jina_search")
    ∧ RouteError.providerError "jina_search" ≠ RouteError.noProvidersAvailable := by
  exact ⟨rfl, rfl, rfl, rfl, by decide⟩

/-- Witness for C1's amended theorem at the concrete exhausted call. -/
theorem C1_witness :
    (routeLoop zLimits "2026-02" 0 jReg noSearch defaultStack emptyState).winner
        = none
    ∧ ((RouteError.providerError "jina_search" = RouteError.noProvidersAvailable
          ∧ jReg "jina_search" = false)
        ∨ (RouteError.providerError "jina_search"
              = RouteError.providerError "jina_search"
          ∧ jReg "jina_search" = true ∧ noSearch "jina_search" = none)) :=
  C1_error_classification zLimits "2026-02" 0 jReg noSearch qOpts emptyState
    (RouteError.providerError "jina_search") rfl rfl

/-- Witness for C3: with `includeContent` set, only `jina_search` is invoked
even while its circuit breaker is open, and with it unregistered the call
fails with the configuration error. -/
theorem C3_witness :
    (route wLimits "2026-02" 0 jReg okSearch icOpts openState).invoked
        = ["jina_search"]
    ∧ (route wLimits "2026-02" 0 (fun _ => false) okSearch icOpts openState).result
        = Except.error RouteError.jinaKeyRequired := by
  refine ⟨((C3_include_content_short_circuit wLimits "2026-02" 0 jReg okSearch
    icOpts openState rfl).2 rfl).1, ?_⟩
  exact ((C3_include_content_short_circuit wLimits "2026-02" 0 (fun _ => false)
    okSearch icOpts openState rfl).1 rfl).1

/-- Claim C10: for every monthly or lifetime provider, `getUsageStats`
reports `remaining` as the limit minus the used count clamped at zero, so it
is never negative even when the used count exceeds the limit. -/
theorem C10_remaining_clamped_at_zero (allUsage : String → Nat) (m : String)
    (now : Nat) (c : Circuit) :
    ∀ (entries : List (String × LimitConfig)) (p : String) (ts : TierStats),
      ((p, ts) ∈ (getUsageStats allUsage m now c entries).monthly
        ∨ (p, ts) ∈ (getUsageStats allUsage m now c entries).lifetime) →
      ts.remaining = max 0 (ts.limit - ts.used)
      ∧ 0 ≤ ts.remaining
      ∧ (ts.limit < ts.used → ts.remaining = 0)
      ∧ (ts.used ≤ ts.limit → ts.remaining = ts.limit - ts.used) := by
  intro entries
  induction entries with
  | nil =>
    intro p ts h
    rcases h with h | h <;> simp [getUsageStats] at h
  | cons e rest ih =>
    intro p ts h
    obtain ⟨q, cfg⟩ := e
    obtain ⟨lim, ty, cpq⟩ := cfg
    have hred : ∀ used lm : Int, ts = TierStats.mk used lm (max 0 (lm - used)) →
        ts.remaining = max 0 (ts.limit - ts.used)
        ∧ 0 ≤ ts.remaining
        ∧ (ts.limit < ts.used → ts.remaining = 0)
        ∧ (ts.used ≤ ts.limit → ts.remaining = ts.limit - ts.used) := by
      intro used lm hts
      subst hts
      refine ⟨rfl, le_max_left _ _, ?_, ?_⟩
      · intro hlt
        have hlt2 : lm < used := hlt
        show max 0 (lm - used) = 0
        exact max_eq_left (by omega)
      · intro hle
        have hle2 : used ≤ lm := hle
        show max 0 (lm - used) = lm - used
        exact max_eq_right (by omega)
    cases ty with
    | monthly =>
      rcases h with h | h
      · rcases List.mem_cons.mp h with h2 | h2
        · exact hred _ _ (congrArg Prod.snd h2)
        · exact ih p ts (Or.inl h2)
      · exact ih p ts (Or.inr h)
    | lifetime =>
      rcases h with h | h
      · exact ih p ts (Or.inl h)
      · rcases List.mem_cons.mp h with h2 | h2
        · exact hred _ _ (congrArg Prod.snd h2)
        · exact ih p ts (Or.inr h2)
    | paid =>
      rcases h with h | h
      · exact ih p ts (Or.inl h)
      · exact ih p ts (Or.inr h)

/-- Witness for C10: `brave` with 2500 used against a limit of 2000 reports
remaining 0, not a negative number. -/
theorem C10_witness :
    (2000 : Int) < 2500 ∧ (TierStats.mk 2500 2000 0).remaining = 0 := by
  have hmem : (("brave", TierStats.mk 2500 2000 0))
      ∈ (getUsageStats wOverUsage "2026-02" 0 (fun _ => none)
          [("brave", { limit := 2000, type := ResetType.monthly,
                       cost_per_query := none })]).monthly := by
    have h : (getUsageStats wOverUsage "2026-02" 0 (fun _ => none)
        [("brave", { limit := 2000, type := ResetType.monthly,
                     cost_per_query := none })]).monthly
        = [("brave", TierStats.mk 2500 2000 0)] := rfl
    rw [h]
    exact List.mem_singleton.mpr rfl
  have h := C10_remaining_clamped_at_zero wOverUsage "2026-02" 0 (fun _ => none)
    [("brave", { limit := 2000, type := ResetType.monthly, cost_per_query := none })]
    "brave" (TierStats.mk 2500 2000 0) (Or.inl hmem)
  exact ⟨by decide, h.2.2.1 (by decide)⟩

end BudgetRouter

/-- Claim C9: the local-file storage backend treats a missing or corrupt
usage file as the empty mapping, never as an error, and `get` returns 0 for
every key absent from storage. -/
theorem C9_missing_or_corrupt_file_is_empty (key : String)
    (data : List (String × Nat)) :
    FileStorage.get FileStorage.FileState.absent key = 0
    ∧ FileStorage.get FileStorage.FileState.corrupt key = 0
    ∧ FileStorage.load FileStorage.FileState.absent = []
    ∧ FileStorage.load FileStorage.FileState.corrupt = []
    ∧ (data.lookup key = none →
        FileStorage.get (FileStorage.FileState.valid data) key = 0) := by
  refine ⟨rfl, rfl, rfl, rfl, ?_⟩
  intro h
  simp [FileStorage.get, FileStorage.load, h]

/-- Claim C8: every provider name accepted by the explicit-selection
interface records its usage on success through the engine's accounting
entry point `recordExplicitUsage`, under the routed key scheme: paid-type
providers under `"{p}:paid"`, all others under their free-tier key via
`recordUsage`.  The membership of each accepted provider in the
`PROVIDER_LIMITS` table is the spec-modelled hypothesis
`limitsCoversExplicit`. -/
theorem C8_explicit_usage_same_accounting (L : String → LimitConfig)
    (inL : String → Bool) (m p : String) (out : Option (List SearchResult))
    (u : String → Nat) (rs : List SearchResult) (u2 : String → Nat)
    (hcov : limitsCoversExplicit inL)
    (hok : unifiedExplicitSearch L inL m p out u = Except.ok (rs, u2)) :
    u2 = BudgetRouter.recordExplicitUsage L inL m p false u
    ∧ ((L p).type = ResetType.paid →
        u2 = UsageStorage.increment (p ++ ":paid") u)
    ∧ ((L p).type ≠ ResetType.paid →
        u2 = BudgetRouter.recordUsage L m p false u) := by
  by_cases hmem : p ∈ explicitProviders
  · simp only [unifiedExplicitSearch, hmem, if_true] at hok
    cases out with
    | some rs0 =>
      have h2 : (rs0, BudgetRouter.recordExplicitUsage L inL m p false u) = (rs, u2) :=
        Except.ok.inj hok
      have hu2 : u2 = BudgetRouter.recordExplicitUsage L inL m p false u :=
        (congrArg Prod.snd h2).symm
      refine ⟨hu2, ?_, ?_⟩
      · intro hp
        rw [hu2]
        simp [BudgetRouter.recordExplicitUsage, hcov p hmem, hp]
      · intro hp
        rw [hu2]
        simp [BudgetRouter.recordExplicitUsage, hcov p hmem, hp]
    | none => exact absurd hok (by simp)
  · simp only [unifiedExplicitSearch, hmem, if_false] at hok
    exact absurd hok (by simp)

/-- Witness for C8 at the explicitly selectable lifetime provider `kagi`. -/
theorem C8_witness :
    BudgetRouter.recordExplicitUsage BudgetRouter.wLimits BudgetRouter.allReg
        "2026-02" "kagi" false (fun _ => 0)
      = BudgetRouter.recordUsage BudgetRouter.wLimits "2026-02" "kagi" false
          (fun _ => 0) := by
  have h := C8_explicit_usage_same_accounting BudgetRouter.wLimits
    BudgetRouter.allReg "2026-02" "kagi" (some []) (fun _ => 0) []
    (BudgetRouter.recordExplicitUsage BudgetRouter.wLimits BudgetRouter.allReg
      "2026-02" "kagi" false (fun _ => 0))
    (fun p _ => rfl) rfl
  exact h.2.2 (by decide)

/-- Witness for C9 at a fresh file and at a valid file missing the key. -/
theorem C9_witness :
    FileStorage.get FileStorage.FileState.absent "y" = 0
    ∧ FileStorage.get (FileStorage.FileState.valid [("x", 5)]) "y" = 0 := by
  have h := C9_missing_or_corrupt_file_is_empty "y" [("x", 5)]
  exact ⟨h.1, h.2.2.2.2 (by decide)⟩

end Omnisearch
